import Mathlib

/-!
# foo-cache: the GET handler and the round-robin upstream pool

A shallow embedding of `src/main.go` (the `GET /*` handler registered in
`main`) and `src/http_client.go` (`httpClientPool`, `httpClient`).

* Go strings are modelled by `String`; every character the code inspects
  (`/`, `.`, `,` and the ASCII letters) is a single byte in UTF-8.
* The `uint64` counter of the pool is a `Nat` reduced modulo `2^64`.
* The key-value store (bitcask), the network and the HTTP framework are
  collaborators of the handler.  The store is a finite map, and what may go
  wrong in a request (a failing `db.Get`, the answer of the network, a failing
  `db.Put`) is an explicit argument `Env` of the handler.
* The request is its escaped path and its header lines; the header lines
  matter to `http.ServeContent`, which evaluates preconditions and ranges.
* `http.Client.Get` is the upstream's answer passed through the client's
  handling of redirect statuses (`clientGet`).
* The handler returns its response together with the store and the pool after
  the request and the list of calls it made to its collaborators.
-/

namespace FooCache

/-! ## Standard-library string functions used by the source -/

/-- Loop of Go `filepath.Ext`: walk from the last character towards the first,
stop with the empty result at a `/`, and return the suffix starting at the first
`.` met.  The first argument is the part of the path still to visit, reversed;
the second is the suffix already visited. -/
def Ext.scan : List Char → List Char → List Char
  | [], _ => []
  | c :: rest, acc =>
    if c = '/' then [] else if c = '.' then c :: acc else Ext.scan rest (c :: acc)

/-- Go `filepath.Ext(path)` (path separator `/`). -/
def Ext (path : String) : String :=
  String.mk (Ext.scan path.data.reverse [])

/-- Go `strings.ToLower` on the handler's keys.  The key is the result of
`URL.EscapedPath()`, which is ASCII only (every other byte is percent-escaped),
and on ASCII `strings.ToLower` maps `A`..`Z` to `a`..`z` and keeps the rest. -/
def ToLower (s : String) : String :=
  String.mk (s.data.map Char.toLower)

/-- Go `strings.TrimRight(s, cutset)`: drop every trailing character of `s`
that occurs in `cutset`. -/
def TrimRight (s cutset : String) : String :=
  String.mk (s.data.reverse.dropWhile (fun c => cutset.data.contains c)).reverse

/-- Go `strings.TrimLeft(s, cutset)`: drop every leading character of `s`
that occurs in `cutset`. -/
def TrimLeft (s cutset : String) : String :=
  String.mk (s.data.dropWhile (fun c => cutset.data.contains c))

/-- Fields of a character list around a one-character separator. -/
def Split.fields (sep : Char) : List Char → List (List Char)
  | [] => [[]]
  | c :: cs =>
    if c = sep then [] :: Split.fields sep cs
    else
      match Split.fields sep cs with
      | [] => [[c]]
      | f :: fs => (c :: f) :: fs

/-- Go `strings.Split(s, sep)` for a separator of one character
(`main` calls it with `","`). -/
def Split (s : String) (sep : Char) : List String :=
  (Split.fields sep s.data).map String.mk

/-! ## `src/http_client.go` -/

/-- Go `[]byte` payloads. -/
abbrev Bytes := List Nat

/-- Header lines, in the order they were added. -/
abbrev Header := List (String × String)

/-- Go `http.Header.Get`: the first value stored under the name, compared
without regard to case, and the empty string when there is none. -/
def Header.Get (h : Header) (name : String) : String :=
  match h.find? (fun kv => ToLower kv.1 == ToLower name) with
  | some kv => kv.2
  | none => ""

/-- Whether a header of that name (compared without regard to case) is present. -/
def Header.has (h : Header) (name : String) : Bool :=
  h.any (fun kv => ToLower kv.1 == ToLower name)

/-- Result of `ioutil.ReadAll(resp.Body)`. -/
inductive BodyRead where
  | ok (content : Bytes)
  | err
  deriving DecidableEq, Repr

/-- The part of a Go `*http.Response` the handler looks at. -/
structure HttpResponse where
  StatusCode : Nat
  Header : Header
  Body : BodyRead
  deriving DecidableEq, Repr

/-- The pair `(*http.Response, error)` returned by `http.Client.Get`. -/
inductive FetchResult where
  | err
  | resp (r : HttpResponse)
  deriving DecidableEq, Repr

/-- The struct `httpClient`; its `http.Client` is represented by the network
argument of `httpClient.Get`. -/
structure httpClient where
  upstream : String
  deriving DecidableEq, Repr

/-- The struct `httpClientPool`. -/
structure httpClientPool where
  clients : List httpClient
  counter : Nat
  deriving DecidableEq, Repr

/-- Go `newHTTPClient`. -/
def newHTTPClient (upstream : String) : httpClient :=
  { upstream := upstream }

/-- Go `newHTTPClientPool`: one client per element of `upstreams`, counter 0. -/
def newHTTPClientPool (upstreams : List String) : httpClientPool :=
  { clients := upstreams.map newHTTPClient, counter := 0 }

/-- Value of `atomic.AddUint64(&p.counter, 1)`: the incremented counter. -/
def httpClientPool.bump (p : httpClientPool) : Nat :=
  (p.counter + 1) % 2 ^ 64

/-- Go `httpClientPool.next`.  The counter is incremented first; with no client
the remainder by `uint64(len(p.clients))` is a division by zero, a run-time
panic, rendered by `none`; otherwise the client at `offset` is returned. -/
def httpClientPool.next (p : httpClientPool) : Option httpClient × httpClientPool :=
  let counter := p.bump
  let p1 : httpClientPool := { p with counter := counter }
  if p.clients.length = 0 then (none, p1)
  else
    let offset := counter % p.clients.length
    (p.clients[offset]?, p1)

/-- The string `fullpath` built by `httpClient.Get` with
`fmt.Sprintf("%s/%s", strings.TrimRight(c.upstream, "/"), strings.TrimLeft(url, "/"))`. -/
def httpClient.fullpath (c : httpClient) (url : String) : String :=
  TrimRight c.upstream "/" ++ "/" ++ TrimLeft url "/"

/-- The network as one `http.Client` meets it: what the upstream sends back for
a URL (a transport error or a response), and whether the client accepts the
value of a `Location` header.  For a non-empty value that is whether
`req.URL.Parse(loc)` succeeds; for the empty value of a 301, 302 or 303 it is
whether the Go release in use returns the response or an error. -/
structure Network where
  answer : String → FetchResult
  acceptsLocation : String → Bool

/-- Go `http.Client.Get` on a client whose `CheckRedirect` returns
`http.ErrUseLastResponse` (`newHTTPClient`), applied to what the upstream sent
back.  A transport error is returned as an error.  For a response 301, 302 or
303, and for a 307 or 308 with a non-empty `Location`, the client reads the
`Location` header before it consults `CheckRedirect`: when the value is not
accepted it returns an error, otherwise `CheckRedirect` makes it return the
response.  Every other response is returned as it is. -/
def clientGet (acceptsLocation : String → Bool) (answer : FetchResult) : FetchResult :=
  match answer with
  | FetchResult.err => FetchResult.err
  | FetchResult.resp r =>
    if r.StatusCode = 301 ∨ r.StatusCode = 302 ∨ r.StatusCode = 303 ∨
        ((r.StatusCode = 307 ∨ r.StatusCode = 308) ∧ r.Header.Get "Location" ≠ "") then
      if acceptsLocation (r.Header.Get "Location") then FetchResult.resp r
      else FetchResult.err
    else FetchResult.resp r

/-- Go `httpClient.Get`: `c.client.Get(fullpath)`. -/
def httpClient.Get (net : Network) (c : httpClient) (url : String) : FetchResult :=
  clientGet net.acceptsLocation (net.answer (c.fullpath url))

/-- Go `httpClientPool.Get`: `c := p.next(); return c.Get(url)`.  The selected
client is returned beside its answer; `none` is the panic of `next`. -/
def httpClientPool.Get (net : Network) (p : httpClientPool) (url : String) :
    Option (httpClient × FetchResult) × httpClientPool :=
  match p.next with
  | (none, p1) => (none, p1)
  | (some c, p1) => (some (c, c.Get net url), p1)

/-- Offsets computed by `m` consecutive sequential calls of `next`. -/
def httpClientPool.offsets : Nat → httpClientPool → List Nat
  | 0, _ => []
  | m + 1, p => (p.bump % p.clients.length) :: httpClientPool.offsets m p.next.2

/-- Clients returned by `m` consecutive sequential calls of `next`. -/
def httpClientPool.run : Nat → httpClientPool → List (Option httpClient)
  | 0, _ => []
  | m + 1, p => p.next.1 :: httpClientPool.run m p.next.2

/-! ## `src/main.go` -/

/-- The map `allowedExt` of `main.go`, read at a key: true for `.jpg`, `.png`,
`.gif` and `.jpeg`, false (the zero value) for every other string. -/
def allowedExt (ext : String) : Bool :=
  ext = ".jpg" || ext = ".png" || ext = ".gif" || ext = ".jpeg"

/-- Contents of the key-value store: the newest entry of a key comes first. -/
abbrev Store := List (String × Bytes)

/-- Entry of the store under a key. -/
def Store.lookup (db : Store) (key : String) : Option Bytes :=
  match db.find? (fun kv => kv.1 == key) with
  | some kv => some kv.2
  | none => none

/-- Store after a successful write. -/
def Store.insert (db : Store) (key : String) (content : Bytes) : Store :=
  (key, content) :: db

/-- The part of the incoming `*http.Request` that the handler and
`http.ServeContent` read: `URL.EscapedPath()` and the header lines. -/
structure Request where
  path : String
  header : Header
  deriving DecidableEq, Repr

/-- What the collaborators do during one request: whether `db.Get` fails, the
network, whether `db.Put` fails, and the status and body that
`http.ServeContent` writes for the requests whose treatment is not spelled out
in `ServeContent.write`. -/
structure Env where
  getErr : Bool
  net : Network
  putErr : Bool
  serveOther : Request → Bytes → Nat × Bytes

/-- Go `db.Get([]byte(key))` as the pair `(value, err)`: `value` is `none` for
a nil slice and the flag says `err != nil`.  A failing read and an absent key
both give a nil value with an error. -/
def dbGet (env : Env) (db : Store) (key : String) : Option Bytes × Bool :=
  if env.getErr then (none, true)
  else
    match db.lookup key with
    | some value => (some value, false)
    | none => (none, true)

/-- Go `db.Put([]byte(key), content)`: the store after the call and whether
`err != nil`.  A failing write leaves the store as it was. -/
def dbPut (env : Env) (db : Store) (key : String) (content : Bytes) : Store × Bool :=
  if env.putErr then (db, true) else (db.insert key content, false)

/-- Response written to the client: status code, the headers set by the
handler (the content headers added by the framework are left out), body. -/
structure Response where
  status : Nat
  header : Header
  body : Bytes
  deriving DecidableEq, Repr

/-- Echo `c.NoContent(code)` for a code that `net/http` writes (100..999): the
status code and an empty body. -/
def NoContent (header : Header) (code : Nat) : Response :=
  { status := code, header := header, body := [] }

/-- Echo `c.Redirect(code, url)` for a code in 300..308 (the handler calls it
with 301 and 302 only): the `Location` header is set, the body is empty. -/
def Redirect (header : Header) (code : Nat) (url : String) : Response :=
  { status := code, header := header ++ [("Location", url)], body := [] }

/-- Status and body written by Go `http.ServeContent` for a GET, called as the
handler calls it: zero modification time, no `Etag` on the response (so
`If-Modified-Since`, `If-Unmodified-Since` and `If-Range` have no effect).
Without `If-Match`, `If-None-Match` and `Range` it writes 200 and the whole
content; without `If-Match` and with `If-None-Match: *` it writes 304 and no
body; what it writes for the remaining requests (412, 206, 416, or 200) is
given by `other`. -/
def ServeContent.write (other : Request → Bytes → Nat × Bytes) (req : Request)
    (content : Bytes) : Nat × Bytes :=
  if req.header.Get "If-Match" = "" then
    if req.header.Get "If-None-Match" = "" then
      if req.header.Get "Range" = "" then (200, content) else other req content
    else if req.header.Get "If-None-Match" = "*" then (304, [])
    else other req content
  else other req content

/-- Go `http.ServeContent(w, req, name, time.Time{}, bytes.NewReader(content))`:
the headers already set on the response are kept by each of its outcomes. -/
def ServeContent (other : Request → Bytes → Nat × Bytes) (header : Header) (req : Request)
    (content : Bytes) : Response :=
  { status := (ServeContent.write other req content).1, header := header,
    body := (ServeContent.write other req content).2 }

/-- Calls made by the handler to its collaborators. -/
inductive Effect where
  | dbGet (key : String)
  | upstreamGet (upstream : String) (fullpath : String)
  | dbPut (key : String) (content : Bytes)
  deriving DecidableEq, Repr

/-- Result of one request: the response (`none` when the handler panicked and
wrote none), the store and the pool afterwards, and the calls made, in order. -/
structure Outcome where
  resp : Option Response
  db : Store
  pool : httpClientPool
  trace : List Effect

/-- The function registered by `main` with `e.GET("/*", ...)`; `req` is
`c.Request()`. -/
def handler (env : Env) (db : Store) (client : httpClientPool) (req : Request) : Outcome :=
  let key := req.path
  let ext := Ext key
  if !allowedExt (ToLower ext) then
    { resp := some (NoContent [] 404), db := db, pool := client, trace := [] }
  else
    -- Get from cache
    match dbGet env db key with
    | (some value, false) =>
      { resp := some (ServeContent env.serveOther [("X-BC-Cache-Status", "HIT")] req value),
        db := db, pool := client, trace := [Effect.dbGet key] }
    | _ =>
      -- Get from upstream
      match client.Get env.net key with
      | (none, pool) =>
        { resp := none, db := db, pool := pool, trace := [Effect.dbGet key] }
      | (some (c, FetchResult.err), pool) =>
        { resp := some (NoContent [] 503), db := db, pool := pool,
          trace := [Effect.dbGet key, Effect.upstreamGet c.upstream (c.fullpath key)] }
      | (some (c, FetchResult.resp r), pool) =>
        let called := [Effect.dbGet key, Effect.upstreamGet c.upstream (c.fullpath key)]
        -- Handle response from upstream
        if r.StatusCode = 200 then
          match r.Body with
          | BodyRead.err =>
            { resp := some (NoContent [] 500), db := db, pool := pool, trace := called }
          | BodyRead.ok content =>
            match dbPut env db key content with
            | (db1, true) =>
              { resp := some (NoContent [] 500), db := db1, pool := pool,
                trace := called ++ [Effect.dbPut key content] }
            | (db1, false) =>
              { resp := some
                  (ServeContent env.serveOther [("X-BC-Cache-Status", "MISS")] req content),
                db := db1, pool := pool, trace := called ++ [Effect.dbPut key content] }
        else if r.StatusCode = 301 ∨ r.StatusCode = 302 then
          { resp := some (Redirect [] r.StatusCode (r.Header.Get "location")),
            db := db, pool := pool, trace := called }
        else
          { resp := some (NoContent [] r.StatusCode), db := db, pool := pool, trace := called }

/-- The pool built by `main`: `newHTTPClientPool(strings.Split(upstreams, ","))`. -/
def mainPool (upstreams : String) : httpClientPool :=
  newHTTPClientPool (Split upstreams ',')

/-! ## The claims in the words of the specification -/

/-- Last segment of a path: what follows its last `/`. -/
def lastSegment (path : List Char) : List Char :=
  (path.reverse.takeWhile (fun c => c != '/')).reverse

/-- The extension as the specification words it: the suffix from the last `.`
of the last path segment, empty when that segment has no `.`. -/
def specExt (path : String) : String :=
  let seg := lastSegment path.data
  if seg.contains '.' then
    String.mk ('.' :: (seg.reverse.takeWhile (fun c => c != '.')).reverse)
  else ""

/-- A string with at most one trailing `/` removed. -/
def trimOneRight (s : String) : String :=
  if s.data.getLast? = some '/' then String.mk s.data.dropLast else s

/-- A string with at most one leading `/` removed. -/
def trimOneLeft (s : String) : String :=
  if s.data.head? = some '/' then String.mk s.data.tail else s

/-- The target URL as the specification words it: one redundant slash trimmed
on each side of the join point. -/
def specFullpath (u p : String) : String :=
  trimOneRight u ++ "/" ++ trimOneLeft p

/-- A header carries no line of the given names (letter case set aside). -/
def carriesNone (h : Header) (names : List String) : Prop :=
  ∀ kv ∈ h, ToLower kv.1 ∉ names.map ToLower

/-- The string `v` is the value of the `Location` header of `h`: the value of
the first line named `Location` in any letter case, or the empty string when
`h` has no such line. -/
def IsLocationValue (h : Header) (v : String) : Prop :=
  (∃ pre name post, h = pre ++ (name, v) :: post ∧ ToLower name = "location" ∧
      ∀ kv ∈ pre, ToLower kv.1 ≠ "location") ∨
    ((∀ kv ∈ h, ToLower kv.1 ≠ "location") ∧ v = "")

/-- Value of the diagnostic header of a response, under a given name. -/
def cacheStatus (name : String) (o : Outcome) : Option String :=
  match o.resp with
  | some r => if r.header.has name then some (r.header.Get name) else none
  | none => none

/-- The request is answered from the store: allowed extension and `db.Get`
returns a value without error. -/
def servedFromStore (env : Env) (db : Store) (key : String) : Bool :=
  allowedExt (ToLower (Ext key)) &&
    (match dbGet env db key with
     | (some _, false) => true
     | _ => false)

/-- The request misses the store. -/
def missesStore (env : Env) (db : Store) (key : String) : Bool :=
  match dbGet env db key with
  | (some _, false) => false
  | _ => true

/-- The request is answered after a successful fetch and store: allowed
extension, a miss, an upstream answer 200 whose body is read, a successful write. -/
def fetchedAndStored (env : Env) (db : Store) (client : httpClientPool) (key : String) : Bool :=
  allowedExt (ToLower (Ext key)) && missesStore env db key &&
    (match client.Get env.net key with
     | (some (_, FetchResult.resp r), _) =>
       r.StatusCode == 200 &&
         (match r.Body with
          | BodyRead.ok _ => !env.putErr
          | BodyRead.err => false)
     | _ => false)

/-! ## Sample data -/

/-- An upstream response 200 with the body `[1, 2, 3]`. -/
def respOk : HttpResponse :=
  { StatusCode := 200, Header := [], Body := BodyRead.ok [1, 2, 3] }

/-- An upstream response 302 with `Location: /elsewhere`. -/
def respRedirect : HttpResponse :=
  { StatusCode := 302, Header := [("Location", "/elsewhere")], Body := BodyRead.ok [] }

/-- An upstream response 418 with a body. -/
def respTeapot : HttpResponse :=
  { StatusCode := 418, Header := [], Body := BodyRead.ok [7] }

/-- An upstream response 302 whose `Location` is a malformed escape. -/
def respBadRedirect : HttpResponse :=
  { StatusCode := 302, Header := [("Location", "%zz")], Body := BodyRead.ok [] }

/-- An upstream response 307 whose `Location` is a malformed escape. -/
def respBadTemporary : HttpResponse :=
  { StatusCode := 307, Header := [("Location", "%zz")], Body := BodyRead.ok [] }

/-- A network in which every upstream sends the same response; of the `Location`
values of the samples, `/elsewhere` parses and `%zz` does not. -/
def netOf (r : HttpResponse) : Network :=
  { answer := fun _ => FetchResult.resp r, acceptsLocation := fun loc => loc == "/elsewhere" }

/-- A network in which every upstream answers 200 with the body `[1, 2, 3]`. -/
def netOk : Network := netOf respOk

/-- A network in which every upstream answers 302 with `Location: /elsewhere`. -/
def netRedirect : Network := netOf respRedirect

/-- A network in which every upstream answers 418 with a body. -/
def netTeapot : Network := netOf respTeapot

/-- Sample environment; `http.ServeContent` answers 412 where its answer is left open. -/
def envOf (getErr : Bool) (net : Network) (putErr : Bool) : Env :=
  { getErr := getErr, net := net, putErr := putErr, serveOther := fun _ _ => (412, []) }

/-- A GET request for a path, with no header. -/
def get (path : String) : Request :=
  { path := path, header := [] }

/-- A GET request for a path, with the header `If-None-Match: *`. -/
def getIfNoneMatch (path : String) : Request :=
  { path := path, header := [("If-None-Match", "*")] }

/-- A pool of three upstreams. -/
def pool3 : httpClientPool :=
  newHTTPClientPool ["http://a", "http://b", "http://c"]

/-- The pool of three upstreams two calls before its counter wraps. -/
def wrapPool : httpClientPool :=
  { pool3 with counter := 2 ^ 64 - 2 }

/-! ## Lemmas on the string functions -/

theorem Ext.scan_eq (l acc : List Char) :
    Ext.scan l acc =
      if '.' ∈ l.takeWhile (fun c => c != '/') then
        '.' :: ((List.takeWhile (fun c => c != '.') (l.takeWhile (fun c => c != '/'))).reverse ++ acc)
      else [] := by
  induction l generalizing acc with
  | nil => simp [Ext.scan]
  | cons c rest ih =>
    by_cases h1 : c = '/'
    · simp [Ext.scan, h1]
    · by_cases h2 : c = '.'
      · subst h2
        simp [Ext.scan, List.takeWhile]
      · have h3 : ¬ ('.' = c) := fun h => h2 h.symm
        have h4 : (c != '/') = true := by simpa using h1
        have h5 : (c != '.') = true := by simpa using h2
        simp [Ext.scan, h1, h2, h3, h4, h5, List.takeWhile_cons, ih]

theorem Ext_eq_specExt (path : String) : Ext path = specExt path := by
  unfold Ext specExt lastSegment
  rw [Ext.scan_eq]
  by_cases h : '.' ∈ List.takeWhile (fun c => c != '/') path.data.reverse
  · simp [h]
  · simp [h]

/-! ## Lemmas on the pool -/

theorem httpClientPool.next_snd (p : httpClientPool) :
    p.next.2 = { p with counter := p.bump } := by
  unfold httpClientPool.next
  split <;> rfl

theorem httpClientPool.next_fst (p : httpClientPool) (h : 0 < p.clients.length) :
    p.next.1 = p.clients[p.bump % p.clients.length]? := by
  unfold httpClientPool.next
  have h0 : ¬ p.clients.length = 0 := by omega
  simp [h0]

theorem httpClientPool.offsets_eq (m : Nat) (p : httpClientPool) :
    httpClientPool.offsets m p =
      (List.range m).map (fun j => ((p.counter + 1 + j) % 2 ^ 64) % p.clients.length) := by
  induction m generalizing p with
  | zero => simp [httpClientPool.offsets]
  | succ m ih =>
    rw [httpClientPool.offsets, ih, List.range_succ_eq_map, httpClientPool.next_snd]
    simp only [List.map_cons, List.map_map, httpClientPool.bump, Nat.add_zero]
    congr 1
    apply List.map_congr_left
    intro j _
    simp only [Function.comp, Nat.succ_eq_add_one]
    congr 1
    omega

theorem httpClientPool.run_eq (m : Nat) (p : httpClientPool) (h : 0 < p.clients.length) :
    httpClientPool.run m p = (httpClientPool.offsets m p).map (fun i => p.clients[i]?) := by
  induction m generalizing p with
  | zero => simp [httpClientPool.run, httpClientPool.offsets]
  | succ m ih =>
    have h1 : 0 < p.next.2.clients.length := by
      rw [httpClientPool.next_snd]; exact h
    rw [httpClientPool.run, httpClientPool.offsets, ih _ h1, httpClientPool.next_fst p h]
    simp [httpClientPool.next_snd]

theorem shift_mod_injOn (n a x y : Nat) (hx : x < n) (hy : y < n)
    (h : (a + x) % n = (a + y) % n) : x = y := by
  have h1 : a + x ≡ a + y [MOD n] := h
  have h2 : x ≡ y [MOD n] := Nat.ModEq.add_left_cancel' a h1
  exact Nat.ModEq.eq_of_lt_of_lt h2 hx hy

theorem shift_mod_surj (n a i : Nat) (hi : i < n) :
    (a + (i + (n - a % n)) % n) % n = i := by
  have hn : 0 < n := by omega
  have hr : a % n < n := Nat.mod_lt a hn
  rw [Nat.add_mod a, Nat.mod_mod, ← Nat.add_mod]
  have hd : n * (a / n) + a % n = a := Nat.div_add_mod a n
  generalize n * (a / n) = q at hd
  have e : a + (i + (n - a % n)) = i + n + q := by omega
  have hq : q % n = 0 := by
    have : q = a - a % n := by omega
    rw [this]
    exact Nat.sub_mod_eq_zero_of_mod_eq (Nat.mod_mod a n).symm
  rw [e, Nat.add_mod, hq, Nat.add_zero, Nat.mod_mod, Nat.add_mod_right, Nat.mod_eq_of_lt hi]

theorem count_shift_window (n a i : Nat) (hi : i < n) :
    List.count i ((List.range n).map (fun j => (a + j) % n)) = 1 := by
  apply List.count_eq_one_of_mem
  · apply List.Nodup.map_on _ (List.nodup_range n)
    intro x hx y hy hxy
    exact shift_mod_injOn n a x y (List.mem_range.mp hx) (List.mem_range.mp hy) hxy
  · rw [List.mem_map]
    exact ⟨(i + (n - a % n)) % n, List.mem_range.mpr (Nat.mod_lt _ (by omega)),
      shift_mod_surj n a i hi⟩

theorem count_shift_windows (n a i k : Nat) (hi : i < n) :
    List.count i ((List.range (k * n)).map (fun j => (a + j) % n)) = k := by
  induction k with
  | zero => simp
  | succ k ih =>
    have e : (k + 1) * n = k * n + n := by ring
    rw [e, List.range_add, List.map_append, List.count_append, ih, List.map_map]
    have e2 : ((fun j => (a + j) % n) ∘ fun x => k * n + x) = fun j => (a + j) % n := by
      funext j
      simp only [Function.comp]
      have e3 : a + (k * n + j) = a + j + n * k := by ring
      rw [e3, Nat.add_mul_mod_self_left]
    rw [e2, count_shift_window n a i hi]

theorem httpClientPool.offsets_of_no_wrap (m : Nat) (p : httpClientPool)
    (hw : p.counter + m < 2 ^ 64 ∨ p.clients.length ∣ 2 ^ 64) :
    httpClientPool.offsets m p =
      (List.range m).map (fun j => (p.counter + 1 + j) % p.clients.length) := by
  rw [httpClientPool.offsets_eq]
  apply List.map_congr_left
  intro j hj
  have hj1 : j < m := List.mem_range.mp hj
  cases hw with
  | inl h =>
    have h1 : p.counter + 1 + j < 2 ^ 64 := by omega
    simp only [Nat.mod_eq_of_lt h1]
  | inr h => exact Nat.mod_mod_of_dvd _ h

theorem Split.fields_ne_nil (sep : Char) (l : List Char) : Split.fields sep l ≠ [] := by
  cases l with
  | nil => simp [Split.fields]
  | cons c cs =>
    unfold Split.fields
    split
    · simp
    · split <;> simp

theorem mainPool_length_pos (upstreams : String) : 0 < (mainPool upstreams).clients.length := by
  have h := Split.fields_ne_nil ',' upstreams.data
  simp only [mainPool, newHTTPClientPool, Split, List.length_map]
  exact List.length_pos.mpr h

theorem httpClientPool.next_isSome (p : httpClientPool) (h : 0 < p.clients.length) :
    ∃ c, p.next.1 = some c ∧ c ∈ p.clients := by
  have hlt : p.bump % p.clients.length < p.clients.length := Nat.mod_lt _ h
  refine ⟨p.clients[p.bump % p.clients.length], ?_, List.getElem_mem _⟩
  rw [httpClientPool.next_fst p h, List.getElem?_eq_getElem hlt]

/-! ## The branches of the handler -/

theorem missesStore_of_getErr (env : Env) (db : Store) (key : String)
    (h : env.getErr = true) : missesStore env db key = true := by
  simp [missesStore, dbGet, h]

theorem missesStore_of_absent (env : Env) (db : Store) (key : String)
    (h : db.lookup key = none) : missesStore env db key = true := by
  unfold missesStore dbGet
  cases env.getErr <;> simp [h]

theorem handler_disallowed (env : Env) (db : Store) (client : httpClientPool) (req : Request)
    (ha : allowedExt (ToLower (Ext req.path)) = false) :
    handler env db client req =
      { resp := some (NoContent [] 404), db := db, pool := client, trace := [] } := by
  simp [handler, ha]

theorem handler_hit (env : Env) (db : Store) (client : httpClientPool) (req : Request)
    (value : Bytes) (ha : allowedExt (ToLower (Ext req.path)) = true)
    (hg : dbGet env db req.path = (some value, false)) :
    handler env db client req =
      { resp := some (ServeContent env.serveOther [("X-BC-Cache-Status", "HIT")] req value),
        db := db, pool := client, trace := [Effect.dbGet req.path] } := by
  simp [handler, ha, hg]

theorem handler_panic (env : Env) (db : Store) (client : httpClientPool) (req : Request)
    (pool : httpClientPool)
    (ha : allowedExt (ToLower (Ext req.path)) = true) (hm : missesStore env db req.path = true)
    (hf : client.Get env.net req.path = (none, pool)) :
    handler env db client req =
      { resp := none, db := db, pool := pool, trace := [Effect.dbGet req.path] } := by
  unfold missesStore at hm
  unfold handler
  dsimp only
  rcases hg : dbGet env db req.path with ⟨_ | v, _ | _⟩ <;> simp [hg] at hm <;> simp [ha, hf]

theorem handler_fetch_err (env : Env) (db : Store) (client : httpClientPool) (req : Request)
    (c : httpClient) (pool : httpClientPool)
    (ha : allowedExt (ToLower (Ext req.path)) = true) (hm : missesStore env db req.path = true)
    (hf : client.Get env.net req.path = (some (c, FetchResult.err), pool)) :
    handler env db client req =
      { resp := some (NoContent [] 503), db := db, pool := pool,
        trace := [Effect.dbGet req.path, Effect.upstreamGet c.upstream (c.fullpath req.path)] } := by
  unfold missesStore at hm
  unfold handler
  dsimp only
  rcases hg : dbGet env db req.path with ⟨_ | v, _ | _⟩ <;> simp [hg] at hm <;> simp [ha, hf]

theorem handler_fetch_resp (env : Env) (db : Store) (client : httpClientPool) (req : Request)
    (c : httpClient) (r : HttpResponse) (pool : httpClientPool)
    (ha : allowedExt (ToLower (Ext req.path)) = true) (hm : missesStore env db req.path = true)
    (hf : client.Get env.net req.path = (some (c, FetchResult.resp r), pool)) :
    handler env db client req =
      if r.StatusCode = 200 then
        match r.Body with
        | BodyRead.err =>
          { resp := some (NoContent [] 500), db := db, pool := pool,
            trace := [Effect.dbGet req.path, Effect.upstreamGet c.upstream (c.fullpath req.path)] }
        | BodyRead.ok content =>
          if env.putErr = true then
            { resp := some (NoContent [] 500), db := db, pool := pool,
              trace := [Effect.dbGet req.path, Effect.upstreamGet c.upstream (c.fullpath req.path),
                Effect.dbPut req.path content] }
          else
            { resp := some (ServeContent env.serveOther [("X-BC-Cache-Status", "MISS")] req content),
              db := db.insert req.path content, pool := pool,
              trace := [Effect.dbGet req.path, Effect.upstreamGet c.upstream (c.fullpath req.path),
                Effect.dbPut req.path content] }
      else if r.StatusCode = 301 ∨ r.StatusCode = 302 then
        { resp := some (Redirect [] r.StatusCode (r.Header.Get "location")),
          db := db, pool := pool,
          trace := [Effect.dbGet req.path, Effect.upstreamGet c.upstream (c.fullpath req.path)] }
      else
        { resp := some (NoContent [] r.StatusCode), db := db, pool := pool,
          trace := [Effect.dbGet req.path, Effect.upstreamGet c.upstream (c.fullpath req.path)] } := by
  unfold missesStore at hm
  unfold handler
  dsimp only
  rcases hg : dbGet env db req.path with ⟨_ | v, _ | _⟩ <;> simp [hg] at hm <;>
    simp only [ha, hf, Bool.not_true, Bool.false_eq_true, if_false] <;>
    (split
     · rcases hb : r.Body with content | _
       · cases hp : env.putErr <;> simp [dbPut, hp]
       · simp
     · rfl)

theorem httpClientPool.Get_snd (net : Network) (p : httpClientPool) (url : String) :
    (p.Get net url).2 = { p with counter := p.bump } := by
  have h := httpClientPool.next_snd p
  unfold httpClientPool.Get
  rcases hn : p.next with ⟨_ | c, p1⟩ <;> simp [hn] at h ⊢ <;> exact h

theorem httpClientPool.Get_eta (net : Network) (p : httpClientPool) (url : String) :
    p.Get net url = ((p.Get net url).1, ({ p with counter := p.bump } : httpClientPool)) := by
  rw [← httpClientPool.Get_snd net p url]

theorem httpClientPool.Get_of_fst (net : Network) (p : httpClientPool)
    (url : String) (x : Option (httpClient × FetchResult)) (h : (p.Get net url).1 = x) :
    p.Get net url = (x, ({ p with counter := p.bump } : httpClientPool)) := by
  rw [httpClientPool.Get_eta, h]

theorem Store.lookup_insert (db : Store) (key : String) (content : Bytes) :
    (db.insert key content).lookup key = some content := by
  simp [Store.lookup, Store.insert]

theorem Header.Get_location (h : Header) : h.Get "location" = h.Get "Location" := by
  have e : ToLower "location" = ToLower "Location" := by decide
  simp [Header.Get, e]

theorem Header.Get_of_carriesNone (h : Header) (names : List String) (name : String)
    (hn : carriesNone h names) (hmem : name ∈ names) : h.Get name = "" := by
  have hf : h.find? (fun kv => ToLower kv.1 == ToLower name) = none := by
    rw [List.find?_eq_none]
    intro kv hkv
    have h1 := hn kv hkv
    have h2 : ToLower kv.1 ≠ ToLower name := by
      intro e
      exact h1 (List.mem_map.mpr ⟨name, hmem, e.symm⟩)
    simpa using h2
  simp [Header.Get, hf]

theorem ServeContent_plain (other : Request → Bytes → Nat × Bytes) (header : Header)
    (req : Request) (content : Bytes)
    (hn : carriesNone req.header ["If-Match", "If-None-Match", "Range"]) :
    ServeContent other header req content =
      { status := 200, header := header, body := content } := by
  have h1 := Header.Get_of_carriesNone req.header _ "If-Match" hn (by simp)
  have h2 := Header.Get_of_carriesNone req.header _ "If-None-Match" hn (by simp)
  have h3 := Header.Get_of_carriesNone req.header _ "Range" hn (by simp)
  simp [ServeContent, ServeContent.write, h1, h2, h3]

theorem Header.Get_of_isLocationValue (h : Header) (v : String)
    (hv : IsLocationValue h v) : h.Get "Location" = v := by
  have e : ToLower "Location" = "location" := by decide
  rcases hv with ⟨pre, name, post, rfl, hname, hpre⟩ | ⟨hnone, rfl⟩
  · induction pre with
    | nil => simp [Header.Get, e, hname]
    | cons kv pre ih =>
      have h1 : ToLower kv.1 ≠ "location" := hpre kv (List.mem_cons_self _ _)
      have h2 : ∀ x ∈ pre, ToLower x.1 ≠ "location" :=
        fun x hx => hpre x (List.mem_cons_of_mem _ hx)
      have ih2 := ih h2
      simp only [Header.Get, e] at ih2 ⊢
      simpa [List.find?_cons, h1] using ih2
  · have hf : h.find? (fun kv => ToLower kv.1 == ToLower "Location") = none := by
      rw [List.find?_eq_none]
      intro kv hkv
      have := hnone kv hkv
      simpa [e] using this
    simp [Header.Get, hf]

theorem clientGet_of_accepted (acceptsLocation : String → Bool) (r : HttpResponse)
    (h : ¬ ((r.StatusCode = 301 ∨ r.StatusCode = 302 ∨ r.StatusCode = 303 ∨
        ((r.StatusCode = 307 ∨ r.StatusCode = 308) ∧ r.Header.Get "Location" ≠ "")) ∧
      acceptsLocation (r.Header.Get "Location") = false)) :
    clientGet acceptsLocation (FetchResult.resp r) = FetchResult.resp r := by
  unfold clientGet
  by_cases h1 : r.StatusCode = 301 ∨ r.StatusCode = 302 ∨ r.StatusCode = 303 ∨
      ((r.StatusCode = 307 ∨ r.StatusCode = 308) ∧ r.Header.Get "Location" ≠ "")
  · have h2 : acceptsLocation (r.Header.Get "Location") = true := by
      cases hacc : acceptsLocation (r.Header.Get "Location")
      · exact absurd ⟨h1, hacc⟩ h
      · rfl
    simp only [if_pos h1, h2, if_true]
  · simp only [if_neg h1]

theorem clientGet_of_rejected (acceptsLocation : String → Bool) (r : HttpResponse)
    (h1 : r.StatusCode = 301 ∨ r.StatusCode = 302 ∨ r.StatusCode = 303 ∨
        ((r.StatusCode = 307 ∨ r.StatusCode = 308) ∧ r.Header.Get "Location" ≠ ""))
    (h2 : acceptsLocation (r.Header.Get "Location") = false) :
    clientGet acceptsLocation (FetchResult.resp r) = FetchResult.err := by
  unfold clientGet
  simp only [if_pos h1, h2, Bool.false_eq_true, if_false]

theorem httpClientPool.Get_of_next (net : Network) (p : httpClientPool) (url : String)
    (c : httpClient) (h : p.next.1 = some c) :
    p.Get net url =
      (some (c, clientGet net.acceptsLocation (net.answer (c.fullpath url))),
        ({ p with counter := p.bump } : httpClientPool)) := by
  apply httpClientPool.Get_of_fst
  unfold httpClientPool.Get
  rcases hn : p.next with ⟨_ | c1, p1⟩
  · rw [hn] at h
    cases h
  · rw [hn] at h
    cases h
    rfl

/-! ## Extension gate (C1) -/

/-- C1: when the lower-cased extension of the path (the suffix from the last `.`
of the last path segment, empty without a `.`) is none of `.jpg`, `.png`, `.gif`,
`.jpeg`, the handler answers 404 with an empty body whatever the store, the pool
and the collaborators are, makes no call to the store or to an upstream, and
leaves the store and the pool as they were. -/
theorem C1_disallowed_extension_404 (env : Env) (db : Store) (client : httpClientPool)
    (req : Request) (h : ToLower (specExt req.path) ∉ [".jpg", ".png", ".gif", ".jpeg"]) :
    (handler env db client req).resp = some { status := 404, header := [], body := [] } ∧
      (handler env db client req).trace = [] ∧
      (handler env db client req).db = db ∧
      (handler env db client req).pool = client := by
  have ha : allowedExt (ToLower (Ext req.path)) = false := by
    rw [Ext_eq_specExt]
    simp only [List.mem_cons, List.mem_singleton, List.mem_nil_iff, or_false, not_or] at h
    simp [allowedExt, h]
  rw [handler_disallowed env db client req ha]
  exact ⟨rfl, rfl, rfl, rfl⟩

/-- Witness of C1: a text file, with the object cached and upstreams answering 200. -/
theorem C1_disallowed_extension_404_witness :
    ToLower (specExt "/img/a.jpg/notes.TXT") ∉ [".jpg", ".png", ".gif", ".jpeg"] ∧
      (handler (envOf false netOk false)
          [("/img/a.jpg/notes.TXT", [5])] pool3 (get "/img/a.jpg/notes.TXT")).resp =
        some { status := 404, header := [], body := [] } :=
  ⟨by decide,
   (C1_disallowed_extension_404 (envOf false netOk false)
      [("/img/a.jpg/notes.TXT", [5])] pool3 (get "/img/a.jpg/notes.TXT") (by decide)).1⟩

/-! ## Cache population (C2, C4, C5) -/

/-- C2, as stated, fails for a conditional request: `/x/y.JPG` is absent from
the store, the upstream answers 200 with body `[1, 2, 3]` and the write
succeeds, but to a request carrying `If-None-Match: *` the first answer is 304
with an empty body (cache status MISS), and so is the second (cache status
HIT), because `http.ServeContent` evaluates the precondition. -/
theorem C2_counterexample_conditional_request :
    allowedExt (ToLower (Ext (getIfNoneMatch "/x/y.JPG").path)) = true ∧
      Store.lookup [] (getIfNoneMatch "/x/y.JPG").path = none ∧
      (handler (envOf false netOk false) [] pool3 (getIfNoneMatch "/x/y.JPG")).trace =
        [Effect.dbGet "/x/y.JPG", Effect.upstreamGet "http://b" "http://b/x/y.JPG",
         Effect.dbPut "/x/y.JPG" [1, 2, 3]] ∧
      (handler (envOf false netOk false) [] pool3 (getIfNoneMatch "/x/y.JPG")).resp =
        some { status := 304, header := [("X-BC-Cache-Status", "MISS")], body := [] } ∧
      (handler (envOf false netOk false)
          (handler (envOf false netOk false) [] pool3 (getIfNoneMatch "/x/y.JPG")).db
          (handler (envOf false netOk false) [] pool3 (getIfNoneMatch "/x/y.JPG")).pool
          (getIfNoneMatch "/x/y.JPG")).resp =
        some { status := 304, header := [("X-BC-Cache-Status", "HIT")], body := [] } := by
  decide

/-- C2 (amended): for an allowed path absent from the store and requests that
carry no `If-Match`, `If-None-Match` or `Range` header, when the selected
upstream answers 200 with body `b` (possibly empty) and the store write
succeeds, the request is answered 200 with cache status MISS and body `b`; the
request that follows for the same path, with a store whose read does not fail
and whatever the upstreams would answer, is answered 200 with cache status HIT
and body `b`, calls the store once and no upstream, and leaves the pool counter
alone. -/
theorem C2_miss_then_hit (env env2 : Env) (db : Store) (client : httpClientPool)
    (req req2 : Request) (c : httpClient) (r : HttpResponse) (b : Bytes)
    (ha : allowedExt (ToLower (Ext req.path)) = true)
    (habs : db.lookup req.path = none)
    (hsel : client.next.1 = some c)
    (hans : env.net.answer (c.fullpath req.path) = FetchResult.resp r)
    (hs : r.StatusCode = 200) (hb : r.Body = BodyRead.ok b)
    (hp : env.putErr = false) (hg2 : env2.getErr = false)
    (hpath : req2.path = req.path)
    (hplain : carriesNone req.header ["If-Match", "If-None-Match", "Range"])
    (hplain2 : carriesNone req2.header ["If-Match", "If-None-Match", "Range"]) :
    (handler env db client req).resp =
        some { status := 200, header := [("X-BC-Cache-Status", "MISS")], body := b } ∧
      (handler env2 (handler env db client req).db (handler env db client req).pool req2).resp =
        some { status := 200, header := [("X-BC-Cache-Status", "HIT")], body := b } ∧
      (handler env2 (handler env db client req).db (handler env db client req).pool req2).trace =
        [Effect.dbGet req.path] ∧
      (handler env2 (handler env db client req).db (handler env db client req).pool req2).pool =
        (handler env db client req).pool := by
  have hm := missesStore_of_absent env db req.path habs
  have hcg : clientGet env.net.acceptsLocation (FetchResult.resp r) = FetchResult.resp r := by
    apply clientGet_of_accepted
    rintro ⟨h1, _⟩
    omega
  have hget := httpClientPool.Get_of_next env.net client req.path c hsel
  rw [hans, hcg] at hget
  have h1 := handler_fetch_resp env db client req c r _ ha hm hget
  simp only [hs, hb, hp, if_true, Bool.false_eq_true, if_false] at h1
  have ha2 : allowedExt (ToLower (Ext req2.path)) = true := by rw [hpath]; exact ha
  have hg : dbGet env2 (db.insert req.path b) req2.path = (some b, false) := by
    rw [hpath]
    simp [dbGet, hg2, Store.lookup_insert]
  rw [h1]
  simp only []
  rw [handler_hit env2 _ _ req2 b ha2 hg, ServeContent_plain _ _ req b hplain,
    ServeContent_plain _ _ req2 b hplain2, hpath]
  exact ⟨rfl, rfl, rfl, rfl⟩

/-- Witness of C2 (amended): `/x/y.JPG` fetched from the pool of three upstreams. -/
theorem C2_miss_then_hit_witness :
    (handler (envOf false netOk false) [] pool3 (get "/x/y.JPG")).resp =
        some { status := 200, header := [("X-BC-Cache-Status", "MISS")], body := [1, 2, 3] } ∧
      (handler (envOf false netTeapot true)
          (handler (envOf false netOk false) [] pool3 (get "/x/y.JPG")).db
          (handler (envOf false netOk false) [] pool3 (get "/x/y.JPG")).pool
          (get "/x/y.JPG")).resp =
        some { status := 200, header := [("X-BC-Cache-Status", "HIT")], body := [1, 2, 3] } :=
  have h := C2_miss_then_hit (envOf false netOk false) (envOf false netTeapot true) [] pool3
    (get "/x/y.JPG") (get "/x/y.JPG") { upstream := "http://b" } respOk [1, 2, 3]
    (by decide) (by decide) (by decide) rfl rfl rfl rfl rfl rfl
    (fun kv hkv => by cases hkv) (fun kv hkv => by cases hkv)
  ⟨h.1, h.2.1⟩

/-- C4: for an allowed path that misses the store, when the selected upstream
answers 200, its body is read and the store write fails, the handler answers
500 with an empty body and no header (so no cache status and none of the
fetched bytes), and the store after the request is the store before it: a req.path
without entry before has none afterwards. -/
theorem C4_put_error_500 (env : Env) (db : Store) (client : httpClientPool)
    (req : Request) (c : httpClient) (r : HttpResponse) (b : Bytes)
    (ha : allowedExt (ToLower (Ext req.path)) = true)
    (hm : missesStore env db req.path = true)
    (hf : (client.Get env.net req.path).1 = some (c, FetchResult.resp r))
    (hs : r.StatusCode = 200) (hb : r.Body = BodyRead.ok b)
    (hp : env.putErr = true) :
    (handler env db client req).resp = some { status := 500, header := [], body := [] } ∧
      cacheStatus "X-BC-Cache-Status" (handler env db client req) = none ∧
      (handler env db client req).db = db ∧
      (db.lookup req.path = none → (handler env db client req).db.lookup req.path = none) := by
  have h1 := handler_fetch_resp env db client req c r _ ha hm
    (httpClientPool.Get_of_fst env.net client req.path _ hf)
  simp only [hs, hb, hp, if_true] at h1
  rw [h1]
  exact ⟨rfl, rfl, rfl, fun h => h⟩

/-- Witness of C4: the write of `/x/y.png` fails. -/
theorem C4_put_error_500_witness :
    (handler (envOf false netOk true) [] pool3 (get "/x/y.png")).resp =
        some { status := 500, header := [], body := [] } ∧
      (handler (envOf false netOk true) [] pool3 (get "/x/y.png")).db = [] :=
  have h := C4_put_error_500 (envOf false netOk true) [] pool3
    (get "/x/y.png") { upstream := "http://b" } respOk [1, 2, 3]
    (by decide) (by decide) (by decide) rfl rfl rfl
  ⟨h.1, h.2.2.1⟩

/-- C5: for an allowed path that misses the store, when the upstream call does
not end in a response of status 200 (a transport error, a redirect, any other
status), the handler makes no `db.Put` call and the store after the request is
the store before it, so that a req.path without entry misses again in the request
that follows. -/
theorem C5_store_written_only_on_200 (env : Env) (db : Store) (client : httpClientPool)
    (req : Request)
    (ha : allowedExt (ToLower (Ext req.path)) = true)
    (hm : missesStore env db req.path = true)
    (hne : ∀ c r, (client.Get env.net req.path).1 = some (c, FetchResult.resp r) →
      r.StatusCode ≠ 200) :
    (handler env db client req).db = db ∧
      (∀ k content, Effect.dbPut k content ∉ (handler env db client req).trace) ∧
      (db.lookup req.path = none →
        ∀ env2, missesStore env2 (handler env db client req).db req.path = true) := by
  have hdb : (handler env db client req).db = db ∧
      (∀ k content, Effect.dbPut k content ∉ (handler env db client req).trace) := by
    rcases hx : (client.Get env.net req.path).1 with _ | ⟨c, _ | r⟩
    · rw [handler_panic env db client req _ ha hm
        (httpClientPool.Get_of_fst env.net client req.path _ hx)]
      simp
    · rw [handler_fetch_err env db client req c _ ha hm
        (httpClientPool.Get_of_fst env.net client req.path _ hx)]
      simp
    · rw [handler_fetch_resp env db client req c r _ ha hm
        (httpClientPool.Get_of_fst env.net client req.path _ hx)]
      have hs : ¬ r.StatusCode = 200 := hne c r hx
      simp only [hs, if_false]
      split <;> simp
  refine ⟨hdb.1, hdb.2, ?_⟩
  intro habs env2
  rw [hdb.1]
  exact missesStore_of_absent env2 db req.path habs

/-- Witness of C5: the upstream redirects `/x/y.gif`. -/
theorem C5_store_written_only_on_200_witness :
    (handler (envOf false netRedirect false) [] pool3 (get "/x/y.gif")).db = [] :=
  (C5_store_written_only_on_200 (envOf false netRedirect false) []
    pool3 (get "/x/y.gif") (by decide) (by decide)
    (fun c r h => by
      have e : (pool3.Get (envOf false netRedirect false).net (get "/x/y.gif").path).1 =
          some ({ upstream := "http://b" }, FetchResult.resp respRedirect) := by decide
      have h2 := e.symm.trans h
      simp only [Option.some.injEq, Prod.mk.injEq, FetchResult.resp.injEq] at h2
      rw [← h2.2]
      decide)).1

/-! ## Redirect and status passthrough (C6) -/

/-- C6, as stated, fails when the `Location` of the upstream's answer does not
parse: the upstream answers 302 (and, in the second run, 307) with
`Location: %zz`, `c.client.Get` returns an error, and the handler answers 503
where the claim has 302 with that `Location` (and 307). -/
theorem C6_counterexample_unparsable_location :
    (netOf respBadRedirect).answer "http://b/x/y.gif" = FetchResult.resp respBadRedirect ∧
      respBadRedirect.StatusCode = 302 ∧
      (handler (envOf false (netOf respBadRedirect) false) [] pool3 (get "/x/y.gif")).trace =
        [Effect.dbGet "/x/y.gif", Effect.upstreamGet "http://b" "http://b/x/y.gif"] ∧
      (handler (envOf false (netOf respBadRedirect) false) [] pool3 (get "/x/y.gif")).resp =
        some { status := 503, header := [], body := [] } ∧
      respBadTemporary.StatusCode = 307 ∧
      (handler (envOf false (netOf respBadTemporary) false) [] pool3 (get "/x/y.gif")).resp =
        some { status := 503, header := [], body := [] } := by
  decide

/-- C6 (amended): for an allowed path that misses the store, let the selected
upstream answer with a status other than 200 and let `v` be the value of the
`Location` header of its answer (empty when there is none).  When the status is
301, 302 or 303, or is 307 or 308 with `v` non-empty, and the HTTP client does
not accept `v`, `c.client.Get` returns an error and the handler answers 503
with an empty body.  Otherwise, for 301 and 302 the handler answers with that
status, one header `Location` carrying `v`, and an empty body, and for every
other status with exactly that status, no header and an empty body. -/
theorem C6_redirect_and_passthrough (env : Env) (db : Store) (client : httpClientPool)
    (req : Request) (c : httpClient) (r : HttpResponse) (v : String)
    (ha : allowedExt (ToLower (Ext req.path)) = true)
    (hm : missesStore env db req.path = true)
    (hsel : client.next.1 = some c)
    (hans : env.net.answer (c.fullpath req.path) = FetchResult.resp r)
    (hs : r.StatusCode ≠ 200)
    (hv : IsLocationValue r.Header v) :
    ((r.StatusCode = 301 ∨ r.StatusCode = 302 ∨ r.StatusCode = 303 ∨
            ((r.StatusCode = 307 ∨ r.StatusCode = 308) ∧ v ≠ "")) ∧
          env.net.acceptsLocation v = false →
        (handler env db client req).resp =
          some { status := 503, header := [], body := [] }) ∧
      (¬ ((r.StatusCode = 301 ∨ r.StatusCode = 302 ∨ r.StatusCode = 303 ∨
            ((r.StatusCode = 307 ∨ r.StatusCode = 308) ∧ v ≠ "")) ∧
          env.net.acceptsLocation v = false) →
        (r.StatusCode = 301 ∨ r.StatusCode = 302 →
          (handler env db client req).resp =
            some { status := r.StatusCode, header := [("Location", v)], body := [] }) ∧
        (¬ (r.StatusCode = 301 ∨ r.StatusCode = 302) →
          (handler env db client req).resp =
            some { status := r.StatusCode, header := [], body := [] })) := by
  have hloc : r.Header.Get "Location" = v := Header.Get_of_isLocationValue r.Header v hv
  have hget := httpClientPool.Get_of_next env.net client req.path c hsel
  rw [hans] at hget
  constructor
  · rintro ⟨h1, h2⟩
    rw [← hloc] at h1 h2
    rw [clientGet_of_rejected _ r h1 h2] at hget
    rw [handler_fetch_err env db client req c _ ha hm hget]
    rfl
  · intro hacc
    rw [← hloc] at hacc
    rw [clientGet_of_accepted _ r hacc] at hget
    rw [handler_fetch_resp env db client req c r _ ha hm hget]
    simp only [hs, if_false]
    constructor
    · intro h
      simp only [h, if_true, Redirect, Header.Get_location, hloc]
      rfl
    · intro h
      simp only [h, if_false]
      rfl

/-- Witness of C6 (amended): a 302 with `Location: /elsewhere`. -/
theorem C6_redirect_and_passthrough_witness :
    (handler (envOf false netRedirect false) [] pool3 (get "/x/y.gif")).resp
      = some { status := 302, header := [("Location", "/elsewhere")], body := [] } :=
  ((C6_redirect_and_passthrough (envOf false netRedirect false) []
    pool3 (get "/x/y.gif") { upstream := "http://b" } respRedirect "/elsewhere"
    (by decide) (by decide) (by decide) rfl (by decide)
    (Or.inl ⟨[], "Location", [], rfl, by decide, fun kv hkv => by cases hkv⟩)).2
      (by decide)).1 (Or.inr rfl)

/-! ## Lookup errors (C7) -/

/-- C7: for an allowed path, when `db.Get` fails (whatever the store holds) the
handler calls `next` on the pool and goes to the upstream, and its response,
its calls to the collaborators and the pool afterwards are those of the same
request on a store that has no entry for the req.path and whose read does not fail,
with the same network and the same result of `db.Put`; the store is updated
the same way in both: left alone in both, or the same content inserted under
the req.path in both. -/
theorem C7_lookup_error_is_a_miss (env : Env) (db db2 : Store) (client : httpClientPool)
    (req : Request)
    (ha : allowedExt (ToLower (Ext req.path)) = true)
    (he : env.getErr = true)
    (habs : db2.lookup req.path = none) :
    (handler env db client req).resp =
        (handler { env with getErr := false } db2 client req).resp ∧
      (handler env db client req).trace =
        (handler { env with getErr := false } db2 client req).trace ∧
      (handler env db client req).pool =
        (handler { env with getErr := false } db2 client req).pool ∧
      (handler env db client req).pool = { client with counter := client.bump } ∧
      (((handler env db client req).db = db ∧
          (handler { env with getErr := false } db2 client req).db = db2) ∨
        ∃ content, (handler env db client req).db = db.insert req.path content ∧
          (handler { env with getErr := false } db2 client req).db =
            db2.insert req.path content) := by
  have hm := missesStore_of_getErr env db req.path he
  have hm2 := missesStore_of_absent { env with getErr := false } db2 req.path habs
  rcases hx : (client.Get env.net req.path).1 with _ | ⟨c, _ | r⟩
  · rw [handler_panic env db client req _ ha hm
        (httpClientPool.Get_of_fst env.net client req.path _ hx),
      handler_panic { env with getErr := false } db2 client req _ ha hm2
        (httpClientPool.Get_of_fst env.net client req.path _ hx)]
    exact ⟨rfl, rfl, rfl, rfl, Or.inl ⟨rfl, rfl⟩⟩
  · rw [handler_fetch_err env db client req c _ ha hm
        (httpClientPool.Get_of_fst env.net client req.path _ hx),
      handler_fetch_err { env with getErr := false } db2 client req c _ ha hm2
        (httpClientPool.Get_of_fst env.net client req.path _ hx)]
    exact ⟨rfl, rfl, rfl, rfl, Or.inl ⟨rfl, rfl⟩⟩
  · rw [handler_fetch_resp env db client req c r _ ha hm
        (httpClientPool.Get_of_fst env.net client req.path _ hx),
      handler_fetch_resp { env with getErr := false } db2 client req c r _ ha hm2
        (httpClientPool.Get_of_fst env.net client req.path _ hx)]
    by_cases hs : r.StatusCode = 200
    · rw [if_pos hs, if_pos hs]
      rcases hb : r.Body with content | _
      · cases hp : env.putErr
        · exact ⟨rfl, rfl, rfl, rfl, Or.inr ⟨content, rfl, rfl⟩⟩
        · exact ⟨rfl, rfl, rfl, rfl, Or.inl ⟨rfl, rfl⟩⟩
      · exact ⟨rfl, rfl, rfl, rfl, Or.inl ⟨rfl, rfl⟩⟩
    · rw [if_neg hs, if_neg hs]
      by_cases h3 : r.StatusCode = 301 ∨ r.StatusCode = 302
      · rw [if_pos h3, if_pos h3]
        exact ⟨rfl, rfl, rfl, rfl, Or.inl ⟨rfl, rfl⟩⟩
      · rw [if_neg h3, if_neg h3]
        exact ⟨rfl, rfl, rfl, rfl, Or.inl ⟨rfl, rfl⟩⟩

/-- Witness of C7: the read of a cached `/x/y.jpeg` fails and the object is
fetched again. -/
theorem C7_lookup_error_is_a_miss_witness :
    (handler (envOf true netOk false) [("/x/y.jpeg", [9])] pool3
        (get "/x/y.jpeg")).resp =
      (handler (envOf false netOk false) [] pool3 (get "/x/y.jpeg")).resp :=
  (C7_lookup_error_is_a_miss (envOf true netOk false)
    [("/x/y.jpeg", [9])] [] pool3 (get "/x/y.jpeg") (by decide) rfl (by decide)).1

/-! ## Diagnostic header (C8) -/

/-- C8, as stated, fails on the name of the header: a response served from the
store and a response served after a fetch and store carry `X-BC-Cache-Status`,
and no header named `X-Cache-Status`. -/
theorem C8_counterexample_header_name :
    (handler (envOf false netOk false) [("/x/y.jpg", [9])] pool3
        (get "/x/y.jpg")).resp =
      some { status := 200, header := [("X-BC-Cache-Status", "HIT")], body := [9] } ∧
      cacheStatus "X-Cache-Status"
        (handler (envOf false netOk false) [("/x/y.jpg", [9])] pool3
          (get "/x/y.jpg")) = none ∧
      (handler (envOf false netOk false) [] pool3 (get "/x/y.jpg")).resp =
        some { status := 200, header := [("X-BC-Cache-Status", "MISS")], body := [1, 2, 3] } ∧
      cacheStatus "X-Cache-Status"
        (handler (envOf false netOk false) [] pool3 (get "/x/y.jpg")) =
        none := by
  decide

/-- C8 (amended): the diagnostic header is named `X-BC-Cache-Status`.  A
response served from the store carries it with value `HIT`, a response served
after a successful fetch and store carries it with value `MISS`, and every
other outcome (404, 500, 503, redirect, passthrough status) carries no such
header; no response carries a header named `X-Cache-Status`. -/
theorem C8_cache_status_header (env : Env) (db : Store) (client : httpClientPool)
    (req : Request) :
    cacheStatus "X-BC-Cache-Status" (handler env db client req) =
        (if servedFromStore env db req.path = true then some "HIT"
         else if fetchedAndStored env db client req.path = true then some "MISS"
         else none) ∧
      cacheStatus "X-Cache-Status" (handler env db client req) = none := by
  by_cases ha : allowedExt (ToLower (Ext req.path)) = true
  · have hcase : (∃ v, dbGet env db req.path = (some v, false)) ∨ missesStore env db req.path = true := by
      unfold missesStore
      rcases hg : dbGet env db req.path with ⟨_ | v, _ | _⟩ <;> simp
    rcases hcase with ⟨v, hg⟩ | hm
    · rw [handler_hit env db client req v ha hg]
      have hs : servedFromStore env db req.path = true := by simp [servedFromStore, ha, hg]
      rw [if_pos hs]
      exact ⟨rfl, rfl⟩
    · have hs : ¬ servedFromStore env db req.path = true := by
        unfold missesStore at hm
        unfold servedFromStore
        rcases hg : dbGet env db req.path with ⟨_ | v, _ | _⟩ <;> simp [hg] at hm <;> simp
      rw [if_neg hs]
      rcases hx : (client.Get env.net req.path).1 with _ | ⟨c, _ | r⟩
      · have hg := httpClientPool.Get_of_fst env.net client req.path _ hx
        have hf : ¬ fetchedAndStored env db client req.path = true := by
          simp [fetchedAndStored, hg]
        rw [handler_panic env db client req _ ha hm hg, if_neg hf]
        exact ⟨rfl, rfl⟩
      · have hg := httpClientPool.Get_of_fst env.net client req.path _ hx
        have hf : ¬ fetchedAndStored env db client req.path = true := by
          simp [fetchedAndStored, hg]
        rw [handler_fetch_err env db client req c _ ha hm hg, if_neg hf]
        exact ⟨rfl, rfl⟩
      · have hg := httpClientPool.Get_of_fst env.net client req.path _ hx
        rw [handler_fetch_resp env db client req c r _ ha hm hg]
        by_cases h2 : r.StatusCode = 200
        · rw [if_pos h2]
          rcases hb : r.Body with content | _
          · cases hp : env.putErr
            · have hf : fetchedAndStored env db client req.path = true := by
                simp [fetchedAndStored, ha, hm, hg, h2, hb, hp]
              rw [if_pos hf]
              exact ⟨rfl, rfl⟩
            · have hf : ¬ fetchedAndStored env db client req.path = true := by
                simp [fetchedAndStored, hg, hb, hp]
              rw [if_neg hf]
              exact ⟨rfl, rfl⟩
          · have hf : ¬ fetchedAndStored env db client req.path = true := by
              simp [fetchedAndStored, hg, hb]
            rw [if_neg hf]
            exact ⟨rfl, rfl⟩
        · have hf : ¬ fetchedAndStored env db client req.path = true := by
            simp [fetchedAndStored, hg, h2]
          rw [if_neg h2, if_neg hf]
          by_cases h3 : r.StatusCode = 301 ∨ r.StatusCode = 302
          · rw [if_pos h3]
            exact ⟨rfl, rfl⟩
          · rw [if_neg h3]
            exact ⟨rfl, rfl⟩
  · have ha2 : allowedExt (ToLower (Ext req.path)) = false := by simpa using ha
    have hs : ¬ servedFromStore env db req.path = true := by simp [servedFromStore, ha2]
    have hf : ¬ fetchedAndStored env db client req.path = true := by
      simp [fetchedAndStored, ha2]
    rw [handler_disallowed env db client req ha2, if_neg hs, if_neg hf]
    exact ⟨rfl, rfl⟩

/-! ## Target URL (C9) -/

theorem slash_cutset (c : Char) : "/".data.contains c = decide (c = '/') := by
  show List.elem c ['/'] = decide (c = '/')
  by_cases h : c = '/'
  · subst h
    rfl
  · have hb : (c == '/') = false := by simpa using h
    simp [List.elem, hb, h]

theorem dropWhile_slashes (j : Nat) (b : List Char) (hb : b.head? ≠ some '/') :
    List.dropWhile (fun c => "/".data.contains c) (List.replicate j '/' ++ b) = b := by
  induction j with
  | zero =>
    cases b with
    | nil => rfl
    | cons c t =>
      have hc : ¬ c = '/' := by simpa using hb
      simp [List.dropWhile_cons, slash_cutset, hc]
  | succ j ih =>
    simp only [List.replicate_succ, List.cons_append, List.dropWhile_cons, slash_cutset]
    simpa using ih

theorem slashes_left (l : List Char) :
    ∃ j b, l = List.replicate j '/' ++ b ∧ b.head? ≠ some '/' := by
  induction l with
  | nil => exact ⟨0, [], rfl, by simp⟩
  | cons c t ih =>
    by_cases hc : c = '/'
    · obtain ⟨j, b, e, hb⟩ := ih
      exact ⟨j + 1, b, by simp [List.replicate_succ, hc, e], hb⟩
    · exact ⟨0, c :: t, rfl, by simpa using hc⟩

theorem slashes_right (l : List Char) :
    ∃ a i, l = a ++ List.replicate i '/' ∧ a.getLast? ≠ some '/' := by
  obtain ⟨i, b, e, hb⟩ := slashes_left l.reverse
  refine ⟨b.reverse, i, ?_, by simpa using hb⟩
  have e2 := congrArg List.reverse e
  simpa using e2

theorem TrimLeft_slashes (j : Nat) (b : List Char) (hb : b.head? ≠ some '/') :
    TrimLeft (String.mk (List.replicate j '/' ++ b)) "/" = String.mk b := by
  simp only [TrimLeft, dropWhile_slashes j b hb]

theorem TrimRight_slashes (i : Nat) (a : List Char) (ha : a.getLast? ≠ some '/') :
    TrimRight (String.mk (a ++ List.replicate i '/')) "/" = String.mk a := by
  have h : a.reverse.head? ≠ some '/' := by simpa using ha
  simp only [TrimRight, List.reverse_append, List.reverse_replicate,
    dropWhile_slashes i a.reverse h, List.reverse_reverse]

theorem trimOneRight_slashes (i : Nat) (a : List Char) (ha : a.getLast? ≠ some '/')
    (hi : i ≤ 1) : trimOneRight (String.mk (a ++ List.replicate i '/')) = String.mk a := by
  interval_cases i
  · simp [trimOneRight, ha]
  · simp [trimOneRight]

theorem trimOneLeft_slashes (j : Nat) (b : List Char) (hb : b.head? ≠ some '/')
    (hj : j ≤ 1) : trimOneLeft (String.mk (List.replicate j '/' ++ b)) = String.mk b := by
  interval_cases j
  · simp [trimOneLeft, hb]
  · simp [trimOneLeft]

/-- C9, as stated, fails when more than one slash meets at the join point: for
the base URL `http://h//` and the path `//a.jpg` the code builds
`http://h/a.jpg`, and removing one slash on each side gives
`http://h///a.jpg`. -/
theorem C9_counterexample_many_slashes :
    httpClient.fullpath { upstream := "http://h//" } "//a.jpg" = "http://h/a.jpg" ∧
      specFullpath "http://h//" "//a.jpg" = "http://h///a.jpg" ∧
      httpClient.fullpath { upstream := "http://h//" } "//a.jpg" ≠
        specFullpath "http://h//" "//a.jpg" := by
  decide

/-- C9 (amended): for every base URL `u` and request path `p`, write `u` as `a`
followed by `i` slashes with `a` not ending in `/`, and `p` as `j` slashes
followed by `b` with `b` not beginning with `/`.  The target URL built by
`httpClient.Get` is `a`, one `/`, then `b`: every trailing slash of `u` and
every leading slash of `p` is removed and the rest of both is kept.  It is `u`
and `p` with at most one slash removed on each side when `i <= 1` and
`j <= 1`, and for `p` beginning with exactly one `/` it is `a` followed by `p`
itself. -/
theorem C9_fullpath_trims_every_slash (u p : String) :
    ∃ (a : List Char) (i : Nat) (b : List Char) (j : Nat),
      u.data = a ++ List.replicate i '/' ∧ a.getLast? ≠ some '/' ∧
      p.data = List.replicate j '/' ++ b ∧ b.head? ≠ some '/' ∧
      httpClient.fullpath { upstream := u } p = String.mk (a ++ '/' :: b) ∧
      (i ≤ 1 → j ≤ 1 → httpClient.fullpath { upstream := u } p = specFullpath u p) ∧
      (j = 1 → httpClient.fullpath { upstream := u } p = String.mk a ++ p) := by
  obtain ⟨a, i, hu, ha⟩ := slashes_right u.data
  obtain ⟨j, b, hp, hb⟩ := slashes_left p.data
  have eu : u = String.mk (a ++ List.replicate i '/') := by rw [← hu]
  have ep : p = String.mk (List.replicate j '/' ++ b) := by rw [← hp]
  have hfull : httpClient.fullpath { upstream := u } p = String.mk (a ++ '/' :: b) := by
    rw [eu, ep]
    simp only [httpClient.fullpath, TrimRight_slashes i a ha, TrimLeft_slashes j b hb]
    apply String.ext
    simp [String.data_append]
  refine ⟨a, i, b, j, hu, ha, hp, hb, hfull, ?_, ?_⟩
  · intro hi hj
    rw [hfull, eu, ep]
    simp only [specFullpath, trimOneRight_slashes i a ha hi, trimOneLeft_slashes j b hb hj]
    apply String.ext
    simp [String.data_append]
  · intro hj
    rw [hfull, ep, hj]
    apply String.ext
    simp [String.data_append]

/-! ## Round robin (C3) and construction of the pool (C10) -/

/-- C3, as stated, fails at the wrap of the counter: with three endpoints and
the counter at `2^64 - 2`, three consecutive calls of `next` compute the
offsets 0, 0, 1, so the first endpoint is returned twice and the third never. -/
theorem C3_counterexample_wrap :
    1 ≤ wrapPool.clients.length ∧ wrapPool.counter < 2 ^ 64 ∧
      httpClientPool.offsets wrapPool.clients.length wrapPool = [0, 0, 1] ∧
      httpClientPool.run wrapPool.clients.length wrapPool =
        [some { upstream := "http://a" }, some { upstream := "http://a" },
         some { upstream := "http://b" }] ∧
      List.count 2 (httpClientPool.offsets wrapPool.clients.length wrapPool) ≠ 1 := by
  decide

/-- C3 (amended): for a pool of `n >= 1` endpoints and a counter value `c`, if
the window does not cross the wrap of the counter (`c + k * n < 2^64`) or `n`
divides `2^64`, then `k * n` consecutive sequential calls of `next` select each
endpoint (each position of the pool) exactly `k` times, and the clients
returned are the ones at the selected positions; `k = 1` is the window of `n`
calls returning each endpoint exactly once. -/
theorem C3_round_robin_without_wrap (p : httpClientPool) (k : Nat)
    (hn : 1 ≤ p.clients.length)
    (hw : p.counter + k * p.clients.length < 2 ^ 64 ∨ p.clients.length ∣ 2 ^ 64) :
    (∀ i, i < p.clients.length →
        List.count i (httpClientPool.offsets (k * p.clients.length) p) = k) ∧
      httpClientPool.run (k * p.clients.length) p =
        (httpClientPool.offsets (k * p.clients.length) p).map (fun i => p.clients[i]?) := by
  refine ⟨?_, httpClientPool.run_eq _ p hn⟩
  intro i hi
  rw [httpClientPool.offsets_of_no_wrap _ p hw]
  exact count_shift_windows p.clients.length (p.counter + 1) i k hi

/-- Witness of C3 (amended): the pool of three upstreams at counter 0, two rounds. -/
theorem C3_round_robin_without_wrap_witness :
    (∀ i, i < pool3.clients.length →
        List.count i (httpClientPool.offsets (2 * pool3.clients.length) pool3) = 2) ∧
      httpClientPool.run (2 * pool3.clients.length) pool3 =
        (httpClientPool.offsets (2 * pool3.clients.length) pool3).map
          (fun i => pool3.clients[i]?) :=
  C3_round_robin_without_wrap pool3 2 (by decide) (Or.inl (by decide))

/-- C10, as stated, fails: `newHTTPClientPool` applied to the empty list returns
a pool with zero clients, and `next` on that pool divides by zero. -/
theorem C10_counterexample_empty_pool :
    (newHTTPClientPool []).clients.length = 0 ∧ (newHTTPClientPool []).next.1 = none := by
  decide

/-- C10 (amended): `newHTTPClientPool` checks nothing and returns a pool with
as many clients as it was given endpoints; the pool that `main` builds from
`strings.Split(upstreams, ",")` has at least one client for every value of the
flag, so at every value of its counter `next` takes the remainder by a
positive size and returns the client at an offset below that size. -/
theorem C10_main_pool_nonempty (upstreams : String) (counter : Nat) :
    (∀ us : List String, (newHTTPClientPool us).clients.length = us.length) ∧
      1 ≤ (mainPool upstreams).clients.length ∧
      ({ mainPool upstreams with counter := counter } : httpClientPool).bump %
          (mainPool upstreams).clients.length < (mainPool upstreams).clients.length ∧
      ∃ c, ({ mainPool upstreams with counter := counter } : httpClientPool).next.1 = some c ∧
        c ∈ (mainPool upstreams).clients := by
  have h := mainPool_length_pos upstreams
  refine ⟨?_, h, Nat.mod_lt _ h, ?_⟩
  · intro us
    simp [newHTTPClientPool]
  · exact httpClientPool.next_isSome { mainPool upstreams with counter := counter } h

end FooCache
